import Mathlib

/-!
Verification of the structured-input / chat-and-transcription core of a
voice-assistant front-end.

The development shallowly embeds the TypeScript sources:

* `src/hooks/useEmailInput.ts` and `src/hooks/useUrlInput.ts` — data-channel
  listeners (`handleDataReceived`) and the `submitEmail` / `submitUrl`
  publishers;
* `src/components/url-input-modal.tsx` and the email modal — client-side
  validation (`validateEmail`, `validateUrl`) and `handleSubmit`;
* `src/hooks/useTranscriptionMessages.ts` — promotion of final transcription
  segments into the timeline (`handleTranscriptionReceived`);
* `src/hooks/useChatAndTranscription.ts` — the timestamp merge of chat and
  transcription entries.

Modelling conventions: JavaScript strings are `String`, byte payloads are
represented by their decode/parse outcome (`Option Json`, `none` being the
decode- or parse-failure path, which the sources catch); `Date.now()` and
`Math.random()` are modelled as explicit streams indexed by a call counter;
the platform `URL` constructor (external to the repository) is abstracted as
a parameter and additionally given a small concrete model sufficient for
scheme inspection.
-/

/-! ### A model of parsed JSON values (the result of `JSON.parse`) -/

/-- Parsed JSON values. Numbers are modelled as integers, which is enough for
the control messages of this repository (none of them carries a fractional
number that any code path inspects). -/
inductive Json where
  | null : Json
  | bool : Bool → Json
  | num : Int → Json
  | str : String → Json
  | arr : List Json → Json
  | obj : List (String × Json) → Json

/-- Lookup of a key in a parsed JSON object body. `JSON.parse` keeps the last
of duplicate keys, hence the left fold (later bindings win). -/
def jsonLookup (fields : List (String × Json)) (key : String) : Option Json :=
  fields.foldl (fun acc kv => if kv.1 = key then some kv.2 else acc) none

/-- JavaScript property access `data.key` on a parsed JSON value: a key lookup
on objects, `undefined` (here `none`) on every other value. Access on `null`
throws, but every access in the sources sits inside the handler's
`try`/`catch`, whose catch performs no state change — observationally the same
as `none` here. -/
def jsonGet (j : Json) (key : String) : Option Json :=
  match j with
  | Json.obj fields => jsonLookup fields key
  | _ => none

/-- JavaScript truthiness of a parsed JSON value (`Boolean(v)`). -/
def jsTruthy : Json → Bool
  | Json.null => false
  | Json.bool b => b
  | Json.num n => n != 0
  | Json.str s => s != ""
  | Json.arr _ => true
  | Json.obj _ => true

/-- JavaScript `v || dflt` applied to an optional field of a parsed message:
the field itself when present and truthy, otherwise the default
(`undefined`, `null`, `""`, `0` and `false` all fall through). -/
def jsOrElse (v : Option Json) (dflt : Json) : Json :=
  match v with
  | some j => if jsTruthy j then j else dflt
  | none => dflt

/-- JavaScript strict equality `v === s` between an accessed field and a
string literal: true exactly when the field is present and is that string. -/
def jsStrictEqStr (v : Option Json) (s : String) : Bool :=
  match v with
  | some (Json.str t) => t = s
  | _ => false

/-! ### State of the two structured-input listeners

Both `useEmailInput` and `useUrlInput` hold a visibility flag plus a label and
a placeholder. The label and placeholder are kept as `Json` because the
sources assign `data.label || default` without coercing, so a non-string
truthy field would be stored as-is. -/

/-- React state of one structured-input hook: `showEmailInput` /
`showUrlInput`, the label and the placeholder. -/
structure InputState where
  visible : Bool
  label : Json
  placeholder : Json

/-- Default email label (initial state and `||` fallback in the source). -/
def emailDefaultLabel : Json := Json.str "Please enter your email address"

/-- Default email placeholder. -/
def emailDefaultPlaceholder : Json := Json.str "your.email@example.com"

/-- Initial state of `useEmailInput`. -/
def emailInitialState : InputState :=
  { visible := false, label := emailDefaultLabel, placeholder := emailDefaultPlaceholder }

/-- Default URL label. -/
def urlDefaultLabel : Json := Json.str "Please enter your website URL"

/-- Default URL placeholder. -/
def urlDefaultPlaceholder : Json := Json.str "https://www.example.com"

/-- Initial state of `useUrlInput`. -/
def urlInitialState : InputState :=
  { visible := false, label := urlDefaultLabel, placeholder := urlDefaultPlaceholder }

/-- Embedding of `handleDataReceived` of `src/hooks/useEmailInput.ts`
(lines 26–59). `parsed` is the outcome of decoding the payload as UTF-8 and
`JSON.parse`-ing it (`none` = the thrown-and-caught failure path). The
returned list is the set of payloads published by the handler; the source
contains no publish call, so it is empty on every path. Note that the source
reads `topic` only for logging — it performs no topic filtering. -/
def handleEmailDataReceived (parsed : Option Json) (_topic : Option String)
    (st : InputState) : InputState × List Json :=
  match parsed with
  | none => (st, [])
  | some data =>
    if jsStrictEqStr (jsonGet data "type") "request_input" &&
        jsStrictEqStr (jsonGet data "input_type") "email" then
      ({ visible := true,
         label := jsOrElse (jsonGet data "label") emailDefaultLabel,
         placeholder := jsOrElse (jsonGet data "placeholder") emailDefaultPlaceholder }, [])
    else (st, [])

/-- Embedding of `handleDataReceived` of `src/hooks/useUrlInput.ts`
(lines 21–45). Unlike the email hook, this handler returns early unless the
message topic is exactly `"url_input"`; `none` for `topic` models the
`undefined` argument. -/
def handleUrlDataReceived (parsed : Option Json) (topic : Option String)
    (st : InputState) : InputState × List Json :=
  if topic ≠ some "url_input" then (st, [])
  else
    match parsed with
    | none => (st, [])
    | some data =>
      if jsStrictEqStr (jsonGet data "type") "request_input" &&
          jsStrictEqStr (jsonGet data "input_type") "url" then
        ({ visible := true,
           label := jsOrElse (jsonGet data "label") urlDefaultLabel,
           placeholder := jsOrElse (jsonGet data "placeholder") urlDefaultPlaceholder }, [])
      else (st, [])

/-! ### The submit operations of the two hooks -/

/-- Outcome of one call to `submitEmail` / `submitUrl`: whether an exception
escaped the call, the visibility flag afterwards, and the payloads published
on the data channel. -/
structure SubmitResult where
  threw : Bool
  visibleAfter : Bool
  published : List Json

/-- Payload built by `submitEmail` (`JSON.stringify` of the response
envelope). -/
def emailSubmitPayload (email : String) : Json :=
  Json.obj [("type", Json.str "email_submitted"), ("email", Json.str email)]

/-- Payload built by `submitUrl`. -/
def urlSubmitPayload (url : String) : Json :=
  Json.obj [("type", Json.str "url_submitted"), ("url", Json.str url)]

/-- Embedding of `submitEmail` of `src/hooks/useEmailInput.ts` (lines 79–93).
The source builds the message, calls `publishData(data, { reliable: true })`
and then `setShowEmailInput(false)`, with no `try`/`catch` anywhere in the
function: when the publish call throws synchronously (`publishThrows`), the
exception escapes the call and the visibility setter is never reached, so the
flag keeps its prior value. -/
def submitEmail (publishThrows : Bool) (visibleBefore : Bool) (email : String) :
    SubmitResult :=
  if publishThrows then
    { threw := true, visibleAfter := visibleBefore, published := [] }
  else
    { threw := false, visibleAfter := false, published := [emailSubmitPayload email] }

/-- Embedding of `submitUrl` of `src/hooks/useUrlInput.ts` (lines 54–66);
same structure as `submitEmail`. -/
def submitUrl (publishThrows : Bool) (visibleBefore : Bool) (url : String) :
    SubmitResult :=
  if publishThrows then
    { threw := true, visibleAfter := visibleBefore, published := [] }
  else
    { threw := false, visibleAfter := false, published := [urlSubmitPayload url] }

/-! ### Client-side validation of the two modals -/

/-- Characters matched by the JavaScript regex class `\s` (used through
`[^\s@]` and `String.prototype.trim`). -/
def isJsSpace (c : Char) : Bool :=
  c = ' ' || c = '\t' || c = '\n' || c = '\r' || c = '\x0b' || c = '\x0c' ||
  c.toNat = 0xa0 || c.toNat = 0x1680 ||
  (0x2000 ≤ c.toNat && c.toNat ≤ 0x200a) ||
  c.toNat = 0x2028 || c.toNat = 0x2029 || c.toNat = 0x202f ||
  c.toNat = 0x205f || c.toNat = 0x3000 || c.toNat = 0xfeff

/-- Characters matched by the regex class `[^\s@]` of the email pattern. -/
def emailAtomChar (c : Char) : Bool :=
  !(isJsSpace c) && c != '@'

/-- Embedding of `validateEmail` of the email modal: the test of the regex
`/^[^\s@]+@[^\s@]+\.[^\s@]+$/`. Since `[^\s@]` never matches `@`, a matching
string contains exactly one `@`; the part before it is the first `+` group,
and the part after it must consist of `[^\s@]` characters containing a dot
that is neither its first nor its last character (the dot of the pattern,
with a nonempty `[^\s@]+` on each side — `[^\s@]` itself matches dots, so any
interior dot will do). The matcher below splits at the first `@` and checks
exactly these conditions. -/
def validateEmail (email : String) : Bool :=
  let cs := email.toList
  let localPart := cs.takeWhile (fun c => c != '@')
  match cs.dropWhile (fun c => c != '@') with
  | [] => false
  | _ :: domainPart =>
    !localPart.isEmpty && localPart.all emailAtomChar &&
    !domainPart.isEmpty && domainPart.all emailAtomChar &&
    ((domainPart.drop 1).dropLast.contains '.')

/-- Declarative reading of the email pattern, taken from the claim: one or
more non-whitespace-non-`@` characters, a literal `@`, one or more such
characters, a literal `.`, and one or more such characters. Stated on the
character list of the string; compared with `validateEmail` in the theorem
for the validation claim. -/
def emailPatternSpec (email : String) : Prop :=
  ∃ a b c : List Char,
    email.toList = a ++ '@' :: (b ++ '.' :: c) ∧
    a ≠ [] ∧ b ≠ [] ∧ c ≠ [] ∧
    (∀ ch ∈ a, emailAtomChar ch) ∧
    (∀ ch ∈ b, emailAtomChar ch) ∧
    (∀ ch ∈ c, emailAtomChar ch)

/-- JavaScript `String.prototype.trim`: strip leading and trailing `\s`
characters. -/
def jsTrimString (s : String) : String :=
  String.mk (((s.toList.dropWhile isJsSpace).reverse.dropWhile isJsSpace).reverse)

/-- Outcome of one `handleSubmit` run of a modal: the field-level error
message set (if any) and the value passed on to `onSubmit` (if any). -/
structure FormSubmitResult where
  error : Option String
  submitted : Option String
deriving DecidableEq

/-- Embedding of `handleSubmit` of the email modal: empty-after-trim input is
rejected with the required-message, non-matching input with the
invalid-format message, and only a validated value reaches `onSubmit`. -/
def emailHandleSubmit (email : String) : FormSubmitResult :=
  if jsTrimString email = "" then
    { error := some "Email is required", submitted := none }
  else if validateEmail email = false then
    { error := some "Please enter a valid email address", submitted := none }
  else
    { error := none, submitted := some email }

/-- Result of the platform `URL` constructor as far as the sources inspect
it: the `protocol` property (lowercased scheme plus a trailing colon). -/
structure UrlObject where
  protocol : String

/-- Modelled from the spec: the platform WHATWG `URL` constructor, which is
not part of this repository (the modal only reads `protocol` of the parse
result). Modelled to the depth the claims need: parsing succeeds when the
input starts with an ASCII-letter-led scheme made of letters, digits, `+`,
`-`, `.` followed by a colon, in which case `protocol` is the lowercased
scheme with the colon; everything else throws (`none`). -/
def parseUrlModel (s : String) : Option UrlObject :=
  match s.toList with
  | [] => none
  | c :: rest =>
    if c.isAlpha then
      let schemeChar : Char → Bool :=
        fun d => d.isAlpha || d.isDigit || d = '+' || d = '-' || d = '.'
      match rest.dropWhile schemeChar with
      | ':' :: _ =>
        some { protocol := String.mk (((c :: rest.takeWhile schemeChar).map Char.toLower) ++ [':']) }
      | _ => none
    else none

/-- Embedding of `validateUrl` of `src/components/url-input-modal.tsx`
(lines 27–34), parametrised by the platform URL parser: `new URL(url)` either
throws (`none`, caught and turned into `false`) or yields an object whose
`protocol` is compared against `http:` and `https:`. -/
def validateUrl (parse : String → Option UrlObject) (url : String) : Bool :=
  match parse url with
  | some urlObj => urlObj.protocol == "http:" || urlObj.protocol == "https:"
  | none => false

/-- Embedding of `handleSubmit` of the URL modal (lines 36–52). -/
def urlHandleSubmit (parse : String → Option UrlObject) (url : String) : FormSubmitResult :=
  if jsTrimString url = "" then
    { error := some "URL is required", submitted := none }
  else if validateUrl parse url = false then
    { error := some "Please enter a valid URL (e.g., https://www.example.com)", submitted := none }
  else
    { error := none, submitted := some url }

/-! ### Transcription promotion and the chat/transcription merge -/

/-- Transcription segment as delivered by the transport
(`{ text, id, final }`). -/
structure Segment where
  text : String
  id : String
  final : Bool

/-- Shape shared by chat messages and promoted transcriptions
(`ReceivedChatMessage` as far as the sources inspect it): identifier,
timestamp in epoch milliseconds, text, and whether `from` resolved to the
local participant. -/
structure ReceivedChatMessage where
  id : String
  timestamp : Nat
  message : String
  fromIsLocal : Bool
deriving DecidableEq

/-- Processing of one segment inside `handleTranscriptionReceived` of
`src/hooks/useTranscriptionMessages.ts` (lines 23–44). The state is the
`transcriptions` list plus a counter `k` of final segments processed so far,
which indexes the streams modelling the platform calls: `nowA k` is the
`Date.now()` in the generated-identifier template, `rand k` the rendered
`Math.random()`, and `nowB k` the `Date.now()` stored as `timestamp`.
An interim segment (`final = false`) is skipped entirely; a final segment is
given identifier `segment.id || generated` (only the empty string is a falsy
string) and appended unless an entry with that identifier already exists. -/
def stepSegment (localIdentity participant : Option String)
    (nowA nowB : Nat → Nat) (rand : Nat → String)
    (st : List ReceivedChatMessage × Nat) (seg : Segment) :
    List ReceivedChatMessage × Nat :=
  if seg.final then
    let k := st.2
    let msgId :=
      if seg.id = "" then "transcription-" ++ toString (nowA k) ++ "-" ++ rand k
      else seg.id
    let msg : ReceivedChatMessage :=
      { id := msgId, timestamp := nowB k, message := seg.text,
        fromIsLocal := participant == localIdentity }
    if st.1.any (fun t => t.id == msg.id) then (st.1, k + 1)
    else (st.1 ++ [msg], k + 1)
  else st

/-- One `TranscriptionReceived` notification: `segments.forEach` over the
batch. -/
def handleTranscriptionReceived (localIdentity participant : Option String)
    (nowA nowB : Nat → Nat) (rand : Nat → String)
    (segments : List Segment) (st : List ReceivedChatMessage × Nat) :
    List ReceivedChatMessage × Nat :=
  segments.foldl (stepSegment localIdentity participant nowA nowB rand) st

/-- A whole session of transcription notifications, starting from the
initial empty `transcriptions` state; each batch is tagged with the identity
of its originating participant. -/
def runBatches (localIdentity : Option String)
    (nowA nowB : Nat → Nat) (rand : Nat → String)
    (batches : List (Option String × List Segment)) :
    List ReceivedChatMessage × Nat :=
  batches.foldl
    (fun st b => handleTranscriptionReceived localIdentity b.1 nowA nowB rand b.2 st)
    ([], 0)

/-- Embedding of the merge of `src/hooks/useChatAndTranscription.ts`
(lines 14–24): the transcription entries and the chat messages are
concatenated (transcriptions first) and sorted ascending by timestamp.
`Array.prototype.sort` is stable per the ECMAScript specification, which
`List.mergeSort` models exactly. -/
def mergeMessages (transcriptions chatMessages : List ReceivedChatMessage) :
    List ReceivedChatMessage :=
  (transcriptions ++ chatMessages).mergeSort (fun a b => a.timestamp ≤ b.timestamp)

/-! ### Helper lemmas -/

/-- Strict string equality on an accessed field holds exactly when the field
is present and is that string. -/
theorem jsStrictEqStr_eq_true_iff (v : Option Json) (s : String) :
    jsStrictEqStr v s = true ↔ v = some (Json.str s) := by
  cases v with
  | none => simp [jsStrictEqStr]
  | some j => cases j <;> simp [jsStrictEqStr]

/-! ### Claims about the structured-input listeners and submitters -/

/-- C9: an inbound payload that fails UTF-8 decoding or JSON parsing is
caught inside the handler (here the `none` parse outcome, the source's
`catch` path): the message is dropped and the listener state is unchanged,
with nothing published. The handlers are total functions, so no exception
escapes in the model. -/
theorem C9_decode_failure_frame (topic : Option String) (st : InputState) :
    handleEmailDataReceived none topic st = (st, []) ∧
    handleUrlDataReceived none topic st = (st, []) := by
  refine ⟨rfl, ?_⟩
  unfold handleUrlDataReceived
  by_cases h : topic = some "url_input" <;> simp [h]

/-- C8: a message that parses but whose `type` is not exactly
`"request_input"`, or whose `input_type` does not match the listener's kind,
leaves the listener state completely unchanged and publishes nothing. -/
theorem C8_shape_mismatch_frame (data : Json) (topic : Option String) (st : InputState) :
    (jsonGet data "type" ≠ some (Json.str "request_input") ∨
        jsonGet data "input_type" ≠ some (Json.str "email") →
      handleEmailDataReceived (some data) topic st = (st, [])) ∧
    (jsonGet data "type" ≠ some (Json.str "request_input") ∨
        jsonGet data "input_type" ≠ some (Json.str "url") →
      handleUrlDataReceived (some data) topic st = (st, [])) := by
  constructor
  · intro h
    have hcond : (jsStrictEqStr (jsonGet data "type") "request_input" &&
        jsStrictEqStr (jsonGet data "input_type") "email") = false := by
      rw [Bool.and_eq_false_iff]
      rcases h with h | h
      · exact Or.inl (by rw [Bool.eq_false_iff, Ne, jsStrictEqStr_eq_true_iff]; exact h)
      · exact Or.inr (by rw [Bool.eq_false_iff, Ne, jsStrictEqStr_eq_true_iff]; exact h)
    simp [handleEmailDataReceived, hcond]
  · intro h
    have hcond : (jsStrictEqStr (jsonGet data "type") "request_input" &&
        jsStrictEqStr (jsonGet data "input_type") "url") = false := by
      rw [Bool.and_eq_false_iff]
      rcases h with h | h
      · exact Or.inl (by rw [Bool.eq_false_iff, Ne, jsStrictEqStr_eq_true_iff]; exact h)
      · exact Or.inr (by rw [Bool.eq_false_iff, Ne, jsStrictEqStr_eq_true_iff]; exact h)
    unfold handleUrlDataReceived
    by_cases ht : topic = some "url_input" <;> simp [ht, hcond]

/-- Witness for C8: a chat-typed message leaves both listeners untouched. -/
theorem C8_shape_mismatch_frame_witness :
    handleEmailDataReceived (some (Json.obj [("type", Json.str "chat")])) none
        emailInitialState = (emailInitialState, []) ∧
    handleUrlDataReceived (some (Json.obj [("type", Json.str "chat")])) (some "url_input")
        urlInitialState = (urlInitialState, []) := by
  have hty : jsonGet (Json.obj [("type", Json.str "chat")]) "type" ≠
      some (Json.str "request_input") := by
    simp [jsonGet, jsonLookup]
  exact ⟨(C8_shape_mismatch_frame _ none emailInitialState).1 (Or.inl hty),
    (C8_shape_mismatch_frame _ (some "url_input") urlInitialState).2 (Or.inl hty)⟩

/-- A well-formed email input request, as the agent sends it. -/
def emailRequestPayload : Json :=
  Json.obj [("type", Json.str "request_input"), ("input_type", Json.str "email")]

/-- C3 counterexample: the claim says the email listener processes a message
only when its topic is `email_input`, and that a `request_input` message
arriving with no topic leaves its state unchanged. In the source the email
handler never looks at the topic: a `request_input`/`email` message with no
topic (and likewise with any other topic) flips the visibility flag. -/
theorem C3_counterexample :
    (handleEmailDataReceived (some emailRequestPayload) none emailInitialState).1.visible
        = true ∧
    emailInitialState.visible = false := by
  exact ⟨rfl, rfl⟩

/-- C3 amended: only the URL listener filters by its fixed topic
(`url_input`); a message on any other topic, or with no topic, leaves the URL
listener unchanged. The email listener ignores the topic entirely — its
behaviour on a payload is identical whatever the topic. -/
theorem C3_amended_topic_filtering (parsed : Option Json) (topic : Option String)
    (st : InputState) :
    (topic ≠ some "url_input" → handleUrlDataReceived parsed topic st = (st, [])) ∧
    handleEmailDataReceived parsed topic st = handleEmailDataReceived parsed none st := by
  refine ⟨fun h => ?_, rfl⟩
  unfold handleUrlDataReceived
  simp [h]

/-- Witness for the amended C3: a URL request on a wrong topic is ignored. -/
theorem C3_amended_topic_filtering_witness :
    handleUrlDataReceived (some emailRequestPayload) (some "email_input") urlInitialState
      = (urlInitialState, []) :=
  (C3_amended_topic_filtering (some emailRequestPayload) (some "email_input")
    urlInitialState).1 (by simp)

/-- C4 counterexample: the claim says a synchronous publish failure is caught
inside the component. In the source neither `submitEmail` nor `submitUrl`
contains a `try`/`catch`: the exception escapes the call (and no
"failed to submit" error state exists anywhere in these hooks). -/
theorem C4_counterexample :
    (submitEmail true true "user@example.com").threw = true ∧
    (submitUrl true true "https://example.com").threw = true :=
  ⟨rfl, rfl⟩

/-- C4 amended: a synchronous publish throw escapes `submitEmail` /
`submitUrl` uncaught; nothing is published, no error message is surfaced
(the hooks have no such state), and the visibility flag keeps its prior
value — a previously open modal stays open only because the hide call is
never reached. On a successful publish the response payload is published
and the modal closes. No automatic retry exists on either path. -/
theorem C4_amended_publish_throw (v : Bool) (s : String) :
    submitEmail true v s = { threw := true, visibleAfter := v, published := [] } ∧
    submitUrl true v s = { threw := true, visibleAfter := v, published := [] } ∧
    submitEmail false v s =
      { threw := false, visibleAfter := false, published := [emailSubmitPayload s] } ∧
    submitUrl false v s =
      { threw := false, visibleAfter := false, published := [urlSubmitPayload s] } :=
  ⟨rfl, rfl, rfl, rfl⟩

/-- Spec-side reading of the label/placeholder fallback, written from the
claim's words: the message's field, except that an absent or empty field is
replaced by the kind's fixed default. Compared with the handlers' `||`
fallback in the theorem for the modal-visibility claim. -/
def specFieldFallback (field : Option String) (dflt : String) : String :=
  match field with
  | none => dflt
  | some s => if s = "" then dflt else s

/-- JavaScript `field || default` agrees with the claim's absent-or-empty
fallback on string-or-absent fields. -/
theorem jsOrElse_map_str (field : Option String) (dflt : String) :
    jsOrElse (Option.map Json.str field) (Json.str dflt) =
      Json.str (specFieldFallback field dflt) := by
  cases field with
  | none => rfl
  | some s => by_cases h : s = "" <;> simp [jsOrElse, jsTruthy, specFieldFallback, h]

/-- C7: a message that parses to an object with `type` exactly
`"request_input"` and the listener's own `input_type` makes the modal
visible, with label and placeholder taken from the message's fields and the
kind's fixed default substituted when a field is absent or empty. Stated for
fields that are absent or strings (the shape `label?: string` /
`placeholder?: string` of the request interface); for the URL listener the
message must arrive on its subscribed topic. -/
theorem C7_modal_shown (data : Json) (topic : Option String) (st : InputState)
    (lab plc : Option String)
    (hty : jsonGet data "type" = some (Json.str "request_input"))
    (hl : jsonGet data "label" = Option.map Json.str lab)
    (hp : jsonGet data "placeholder" = Option.map Json.str plc) :
    (jsonGet data "input_type" = some (Json.str "email") →
      handleEmailDataReceived (some data) topic st =
        ({ visible := true,
           label := Json.str (specFieldFallback lab "Please enter your email address"),
           placeholder := Json.str (specFieldFallback plc "your.email@example.com") }, [])) ∧
    (jsonGet data "input_type" = some (Json.str "url") →
      handleUrlDataReceived (some data) (some "url_input") st =
        ({ visible := true,
           label := Json.str (specFieldFallback lab "Please enter your website URL"),
           placeholder := Json.str (specFieldFallback plc "https://www.example.com") }, [])) := by
  constructor
  · intro hin
    have h1 : jsStrictEqStr (jsonGet data "type") "request_input" = true :=
      (jsStrictEqStr_eq_true_iff _ _).mpr hty
    have h2 : jsStrictEqStr (jsonGet data "input_type") "email" = true :=
      (jsStrictEqStr_eq_true_iff _ _).mpr hin
    simp [handleEmailDataReceived, h1, h2, hl, hp, jsOrElse_map_str,
      emailDefaultLabel, emailDefaultPlaceholder]
  · intro hin
    have h1 : jsStrictEqStr (jsonGet data "type") "request_input" = true :=
      (jsStrictEqStr_eq_true_iff _ _).mpr hty
    have h2 : jsStrictEqStr (jsonGet data "input_type") "url" = true :=
      (jsStrictEqStr_eq_true_iff _ _).mpr hin
    simp [handleUrlDataReceived, h1, h2, hl, hp, jsOrElse_map_str,
      urlDefaultLabel, urlDefaultPlaceholder]

/-- Witness for C7: a request with a custom label and no placeholder shows
the email modal with that label and the default placeholder. -/
theorem C7_modal_shown_witness :
    handleEmailDataReceived
        (some (Json.obj [("type", Json.str "request_input"),
          ("input_type", Json.str "email"), ("label", Json.str "Work email")]))
        none emailInitialState =
      ({ visible := true, label := Json.str "Work email",
         placeholder := Json.str "your.email@example.com" }, []) := by
  have h := (C7_modal_shown
      (Json.obj [("type", Json.str "request_input"),
        ("input_type", Json.str "email"), ("label", Json.str "Work email")])
      none emailInitialState (some "Work email") none
      (by simp [jsonGet, jsonLookup]) (by simp [jsonGet, jsonLookup])
      (by simp [jsonGet, jsonLookup])).1 (by simp [jsonGet, jsonLookup])
  simpa [specFieldFallback] using h

/-! ### Claims about transcription promotion -/

/-- The identifier the handler generates for a falsy segment id. -/
def generatedId (nowA : Nat → Nat) (rand : Nat → String) (k : Nat) : String :=
  "transcription-" ++ toString (nowA k) ++ "-" ++ rand k

/-- Generated identifiers are never the empty string. -/
theorem generatedId_ne_empty (nowA : Nat → Nat) (rand : Nat → String) (k : Nat) :
    generatedId nowA rand k ≠ "" := by
  intro h
  have hlen := congrArg String.length h
  simp [generatedId, String.length_append] at hlen
  exact absurd hlen.1.1.1 (by decide)

/-- C10: a final segment whose id is the empty string (the only falsy
string) is given a freshly generated identifier
`transcription-<time>-<random>`; provided that identifier is not already in
the list (the uniqueness `Date.now`/`Math.random` is relied upon for), the
segment is appended as a new entry rather than deduplicated, and the
promoted entry's id differs from the segment's id. -/
theorem C10_empty_id_generated (localIdentity participant : Option String)
    (nowA nowB : Nat → Nat) (rand : Nat → String)
    (prev : List ReceivedChatMessage) (k : Nat) (seg : Segment)
    (hfin : seg.final = true) (hid : seg.id = "")
    (hfresh : ∀ t ∈ prev, t.id ≠ generatedId nowA rand k) :
    stepSegment localIdentity participant nowA nowB rand (prev, k) seg =
      (prev ++ [{ id := generatedId nowA rand k, timestamp := nowB k,
                  message := seg.text, fromIsLocal := participant == localIdentity }],
        k + 1) ∧
    generatedId nowA rand k ≠ seg.id := by
  constructor
  · have hany : prev.any (fun t => t.id == generatedId nowA rand k) = false := by
      rw [List.any_eq_false]
      intro t ht
      simpa using hfresh t ht
    simp [stepSegment, hfin, hid, generatedId, hany]
    intro t ht
    simpa [generatedId] using hfresh t ht
  · rw [hid]
    exact generatedId_ne_empty nowA rand k

/-- Witness for C10: a final segment with empty id appended to the empty
list becomes a fresh `transcription-…` entry. -/
theorem C10_empty_id_generated_witness :
    stepSegment none none (fun _ => 5) (fun _ => 6) (fun _ => "0.5") ([], 0)
        { text := "hello", id := "", final := true } =
      ([{ id := "transcription-5-0.5", timestamp := 6, message := "hello",
          fromIsLocal := true }], 1) := by
  have h := (C10_empty_id_generated none none (fun _ => 5) (fun _ => 6) (fun _ => "0.5")
    [] 0 { text := "hello", id := "", final := true } rfl rfl (by simp)).1
  simpa [generatedId] using h

/-- One promotion step preserves distinctness of the identifiers in the
transcription list: an entry is appended only after the membership check on
its identifier fails. -/
theorem nodup_ids_append_of_check_failed (l : List ReceivedChatMessage)
    (m : ReceivedChatMessage)
    (h : (l.map ReceivedChatMessage.id).Nodup)
    (hany : ¬ (l.any fun t => t.id == m.id) = true) :
    ((l ++ [m]).map ReceivedChatMessage.id).Nodup := by
  rw [List.map_append, List.nodup_append]
  refine ⟨h, by simp, ?_⟩
  intro a ha hb
  simp only [List.map_cons, List.map_nil, List.mem_singleton] at hb
  rw [Bool.not_eq_true, List.any_eq_false] at hany
  obtain ⟨t, ht, hta⟩ := List.mem_map.mp ha
  exact hany t ht (by rw [beq_iff_eq, hta, hb])

theorem stepSegment_ids_nodup (localIdentity participant : Option String)
    (nowA nowB : Nat → Nat) (rand : Nat → String)
    (st : List ReceivedChatMessage × Nat) (seg : Segment)
    (h : (st.1.map ReceivedChatMessage.id).Nodup) :
    ((stepSegment localIdentity participant nowA nowB rand st seg).1.map
      ReceivedChatMessage.id).Nodup := by
  by_cases hf : seg.final = true
  · simp only [stepSegment, hf, if_true]
    split
    · split
      · exact h
      · next hany => exact nodup_ids_append_of_check_failed _ _ h hany
    · split
      · exact h
      · next hany => exact nodup_ids_append_of_check_failed _ _ h hany
  · simpa [stepSegment, hf] using h

/-- A whole notification batch preserves identifier distinctness. -/
theorem handleTranscriptionReceived_ids_nodup (localIdentity participant : Option String)
    (nowA nowB : Nat → Nat) (rand : Nat → String) (segments : List Segment) :
    ∀ st : List ReceivedChatMessage × Nat,
      (st.1.map ReceivedChatMessage.id).Nodup →
      ((handleTranscriptionReceived localIdentity participant nowA nowB rand segments
          st).1.map ReceivedChatMessage.id).Nodup := by
  unfold handleTranscriptionReceived
  induction segments with
  | nil => exact fun _ h => h
  | cons s ss ih =>
    intro st h
    simp only [List.foldl_cons]
    exact ih _ (stepSegment_ids_nodup _ _ _ _ _ st s h)

/-- Across any sequence of notifications, the promoted identifiers stay
pairwise distinct. -/
theorem runBatches_ids_nodup (localIdentity : Option String)
    (nowA nowB : Nat → Nat) (rand : Nat → String)
    (batches : List (Option String × List Segment)) :
    ((runBatches localIdentity nowA nowB rand batches).1.map
      ReceivedChatMessage.id).Nodup := by
  rw [runBatches]
  suffices hgen : ∀ st : List ReceivedChatMessage × Nat,
      (st.1.map ReceivedChatMessage.id).Nodup →
      ((batches.foldl
          (fun st b => handleTranscriptionReceived localIdentity b.1 nowA nowB rand b.2 st)
          st).1.map ReceivedChatMessage.id).Nodup by
    exact hgen ([], 0) (by simp)
  induction batches with
  | nil => exact fun _ h => h
  | cons b bs ih =>
    intro st h
    simp only [List.foldl_cons]
    exact ih _ (handleTranscriptionReceived_ids_nodup _ _ _ _ _ _ st h)

/-- A final segment with a genuine (nonempty) identifier that is already in
the list is dropped. -/
theorem stepSegment_dup_final (localIdentity participant : Option String)
    (nowA nowB : Nat → Nat) (rand : Nat → String)
    (prev : List ReceivedChatMessage) (k : Nat) (seg : Segment)
    (hfin : seg.final = true) (hid : seg.id ≠ "")
    (hmem : ∃ t ∈ prev, t.id = seg.id) :
    stepSegment localIdentity participant nowA nowB rand (prev, k) seg = (prev, k + 1) := by
  obtain ⟨t, ht, hEq⟩ := hmem
  have hany : prev.any (fun x => x.id == seg.id) = true :=
    List.any_eq_true.mpr ⟨t, ht, by simp [hEq]⟩
  simp [stepSegment, hfin, hid, hany]

/-- C1: across any sequence of transcription notifications, interim
(`final = false`) segments never change the transcription list; a final
segment carrying an identifier that already appears in the list leaves the
list unchanged (stated for nonempty identifiers — the segment's own id is
used exactly when it is nonempty, the empty-id fallback being the separate
generated-identifier behaviour); the identifiers in the list are pairwise
distinct at every point, so no segment id is promoted twice; and the
batch sequence interim "a" / final "a" / duplicate final "a" yields exactly
one entry, with id "a" and the final segment's text. -/
theorem C1_only_finals_promoted_once (localIdentity : Option String)
    (nowA nowB : Nat → Nat) (rand : Nat → String)
    (batches : List (Option String × List Segment)) :
    (∀ participant seg st, seg.final = false →
        stepSegment localIdentity participant nowA nowB rand st seg = st) ∧
    (∀ participant seg prev k, seg.final = true → seg.id ≠ "" →
        (∃ t ∈ prev, t.id = seg.id) →
        stepSegment localIdentity participant nowA nowB rand (prev, k) seg
          = (prev, k + 1)) ∧
    ((runBatches localIdentity nowA nowB rand batches).1.map
      ReceivedChatMessage.id).Nodup ∧
    ((runBatches localIdentity nowA nowB rand
        [(some "agent", [{ text := "hi", id := "a", final := false }]),
         (some "agent", [{ text := "hi there", id := "a", final := true }]),
         (some "agent", [{ text := "hi there", id := "a", final := true }])]).1.map
        (fun m => (m.id, m.message)) = [("a", "hi there")]) := by
  refine ⟨?_, ?_, runBatches_ids_nodup _ _ _ _ _, ?_⟩
  · intro participant seg st hf
    simp [stepSegment, hf]
  · intro participant seg prev k hf hid hmem
    exact stepSegment_dup_final _ _ _ _ _ _ _ _ hf hid hmem
  · simp [runBatches, handleTranscriptionReceived, stepSegment]

/-- Witness for C1: an interim segment is a no-op, and a duplicate final for
an id already in the list is a no-op. -/
theorem C1_only_finals_promoted_once_witness :
    stepSegment none none (fun _ => 0) (fun _ => 0) (fun _ => "r")
        ([], 0) { text := "hi", id := "a", final := false } = ([], 0) ∧
    stepSegment none none (fun _ => 0) (fun _ => 0) (fun _ => "r")
        ([{ id := "a", timestamp := 0, message := "hi there", fromIsLocal := true }], 1)
        { text := "hi there", id := "a", final := true } =
      ([{ id := "a", timestamp := 0, message := "hi there", fromIsLocal := true }], 2) := by
  refine ⟨(C1_only_finals_promoted_once none (fun _ => 0) (fun _ => 0) (fun _ => "r")
      []).1 none _ _ rfl, ?_⟩
  exact (C1_only_finals_promoted_once none (fun _ => 0) (fun _ => 0) (fun _ => "r")
    []).2.1 none { text := "hi there", id := "a", final := true }
    [{ id := "a", timestamp := 0, message := "hi there", fromIsLocal := true }] 1
    rfl (by decide) ⟨_, List.mem_singleton_self _, rfl⟩

/-! ### Claims about the chat/transcription merge -/

unseal List.merge List.mergeSort in
/-- C2: the displayed sequence is the stable ascending-by-timestamp sort of
the concatenation transcriptions-then-chat: it is a permutation of that
concatenation, it is sorted by timestamp, every pair already in
timestamp-order in the concatenation (in particular every tie) keeps its
relative order, recomputation on unchanged inputs is identical, and the
spec's example — chat timestamps 100 and 300 merged with transcription
timestamp 200 — comes out ordered 100, 200, 300. -/
theorem C2_merge_sorted_stable (transcriptions chatMessages : List ReceivedChatMessage) :
    List.Perm (mergeMessages transcriptions chatMessages)
      (transcriptions ++ chatMessages) ∧
    List.Pairwise (fun a b => a.timestamp ≤ b.timestamp)
      (mergeMessages transcriptions chatMessages) ∧
    (∀ a b : ReceivedChatMessage, a.timestamp ≤ b.timestamp →
        List.Sublist [a, b] (transcriptions ++ chatMessages) →
        List.Sublist [a, b] (mergeMessages transcriptions chatMessages)) ∧
    mergeMessages transcriptions chatMessages
      = mergeMessages transcriptions chatMessages ∧
    ((mergeMessages [{ id := "t1", timestamp := 200, message := "t", fromIsLocal := false }]
        [{ id := "c1", timestamp := 100, message := "c", fromIsLocal := false },
         { id := "c2", timestamp := 300, message := "d", fromIsLocal := false }]).map
      (fun m => m.timestamp) = [100, 200, 300]) := by
  refine ⟨List.mergeSort_perm _ _, ?_, ?_, rfl, by decide⟩
  · have h := @List.sorted_mergeSort ReceivedChatMessage
      (fun x y : ReceivedChatMessage => decide (x.timestamp ≤ y.timestamp))
      (fun x y z hxy hyz => by simp_all; omega)
      (fun x y => by simp [Nat.le_total])
      (transcriptions ++ chatMessages)
    exact h.imp (fun hxy => by simpa using hxy)
  · intro a b hab hsub
    exact @List.pair_sublist_mergeSort ReceivedChatMessage
      (fun p q : ReceivedChatMessage => decide (p.timestamp ≤ q.timestamp))
      a b (transcriptions ++ chatMessages)
      (fun p q r hpq hqr => by simp_all; omega)
      (fun p q => by simp [Nat.le_total])
      (by simpa using hab) hsub

/-- Witness for C2: the stability conjunct applied to the example's
transcription entry (timestamp 200) and late chat entry (timestamp 300). -/
theorem C2_merge_sorted_stable_witness :
    List.Sublist
      [{ id := "t1", timestamp := 200, message := "t", fromIsLocal := false },
       { id := "c2", timestamp := 300, message := "d", fromIsLocal := false }]
      (mergeMessages [{ id := "t1", timestamp := 200, message := "t", fromIsLocal := false }]
        [{ id := "c1", timestamp := 100, message := "c", fromIsLocal := false },
         { id := "c2", timestamp := 300, message := "d", fromIsLocal := false }]) :=
  (C2_merge_sorted_stable
      [{ id := "t1", timestamp := 200, message := "t", fromIsLocal := false }]
      [{ id := "c1", timestamp := 100, message := "c", fromIsLocal := false },
       { id := "c2", timestamp := 300, message := "d", fromIsLocal := false }]).2.2.1
    _ _ (by decide) (by decide)

/-! ### Claims about the validators -/

/-- C6: `validateUrl` accepts exactly the inputs the URL parser parses into
an object whose protocol is `http:` or `https:` (stated over any parser,
since the WHATWG constructor is platform code); on the concrete parser model
`https://example.com` is accepted while `ftp://example.com` and `not a url`
are rejected; empty-after-trim input gets the distinct required-message and
rejections never submit. -/
theorem C6_url_validation :
    (∀ (parse : String → Option UrlObject) (s : String),
        validateUrl parse s = true ↔
          ∃ u, parse s = some u ∧ (u.protocol = "http:" ∨ u.protocol = "https:")) ∧
    validateUrl parseUrlModel "https://example.com" = true ∧
    validateUrl parseUrlModel "ftp://example.com" = false ∧
    validateUrl parseUrlModel "not a url" = false ∧
    (∀ (parse : String → Option UrlObject) (s : String), jsTrimString s = "" →
        urlHandleSubmit parse s = { error := some "URL is required", submitted := none }) ∧
    urlHandleSubmit parseUrlModel ""
      = { error := some "URL is required", submitted := none } ∧
    "URL is required" ≠ "Please enter a valid URL (e.g., https://www.example.com)" ∧
    (∀ (parse : String → Option UrlObject) (s : String),
        (urlHandleSubmit parse s).error.isSome = true →
        (urlHandleSubmit parse s).submitted = none) := by
  refine ⟨?_, by decide, by decide, by decide, ?_, by decide, by decide, ?_⟩
  · intro parse s
    cases hp : parse s with
    | none => simp [validateUrl, hp]
    | some u => simp [validateUrl, hp]
  · intro parse s h
    simp [urlHandleSubmit, h]
  · intro parse s h
    by_cases h1 : jsTrimString s = ""
    · simp [urlHandleSubmit, h1]
    · by_cases h2 : validateUrl parse s = false
      · simp [urlHandleSubmit, h1, h2]
      · exfalso
        simp [urlHandleSubmit, h1, h2] at h

/-- Witness for C6: the empty input is rejected as required, and a rejected
input is never submitted. -/
theorem C6_url_validation_witness :
    urlHandleSubmit parseUrlModel ""
      = { error := some "URL is required", submitted := none } ∧
    (urlHandleSubmit parseUrlModel "not a url").submitted = none :=
  ⟨C6_url_validation.2.2.2.2.1 parseUrlModel "" (by decide),
   C6_url_validation.2.2.2.2.2.2.2 parseUrlModel "not a url" (by decide)⟩

/-- Head of a nonempty `dropWhile` result fails the predicate. -/
theorem dropWhile_head_false {α : Type} {p : α → Bool} :
    ∀ {l : List α} {x : α} {xs : List α}, l.dropWhile p = x :: xs → p x = false := by
  intro l
  induction l with
  | nil => intro x xs h; simp at h
  | cons a as ih =>
    intro x xs h
    rw [List.dropWhile_cons] at h
    by_cases hp : p a
    · rw [if_pos hp] at h
      exact ih h
    · rw [if_neg hp] at h
      cases h
      simpa using hp

/-- Characters of the email atom class are not `@`. -/
theorem emailAtomChar_ne_at {c : Char} (h : emailAtomChar c = true) : (c != '@') = true := by
  unfold emailAtomChar at h
  rw [Bool.and_eq_true] at h
  exact h.2

/-- Soundness half of the matcher: acceptance yields the claimed
decomposition. -/
theorem validateEmail_sound (s : String) (h : validateEmail s = true) :
    emailPatternSpec s := by
  simp only [validateEmail] at h
  cases hD : s.toList.dropWhile (fun c => c != '@') with
  | nil => rw [hD] at h; simp at h
  | cons x d =>
    rw [hD] at h
    have hx : x = '@' := by
      have := dropWhile_head_false hD
      simpa using this
    subst hx
    simp only [Bool.and_eq_true] at h
    obtain ⟨⟨⟨⟨h1, h2⟩, h3⟩, h4⟩, h5⟩ := h
    have h5m : '.' ∈ (d.drop 1).dropLast := by simpa using h5
    obtain ⟨u, v, huv⟩ := List.append_of_mem h5m
    cases d with
    | nil => simp at h5m
    | cons d0 ds =>
      simp only [List.drop_succ_cons, List.drop_zero] at huv
      have hds : ds ≠ [] := by
        intro hh
        rw [hh] at huv
        simp at huv
      have hlast := List.dropLast_concat_getLast hds
      set z := ds.getLast hds with hzdef
      have hds2 : ds = (u ++ '.' :: v) ++ [z] := by
        rw [← huv, hlast]
      have hcs : s.toList =
          s.toList.takeWhile (fun c => c != '@') ++
            '@' :: (d0 :: ((u ++ '.' :: v) ++ [z])) := by
        conv_lhs => rw [← List.takeWhile_append_dropWhile (fun c => c != '@') s.toList]
        rw [hD, ← hds2]
      refine ⟨s.toList.takeWhile (fun c => c != '@'), d0 :: u,
        v ++ [z], ?_, ?_, by simp, by simp, ?_, ?_, ?_⟩
      · conv_lhs => rw [hcs]
        simp
      · simpa using h1
      · intro ch hch
        exact List.all_eq_true.mp h2 ch hch
      · intro ch hch
        refine List.all_eq_true.mp h4 ch ?_
        simp only [hds2, List.mem_cons, List.mem_append, List.mem_singleton] at hch ⊢
        tauto
      · intro ch hch
        refine List.all_eq_true.mp h4 ch ?_
        simp only [hds2, List.mem_cons, List.mem_append, List.mem_singleton] at hch ⊢
        tauto

/-- Completeness half of the matcher: every decomposition in the claimed
pattern is accepted. -/
theorem validateEmail_complete (s : String) (h : emailPatternSpec s) :
    validateEmail s = true := by
  obtain ⟨a, b, c, hcs, ha, hb, hc, hA, hB, hC⟩ := h
  have hpa : ∀ x ∈ a, ((x != '@') = true) := fun x hx => emailAtomChar_ne_at (hA x hx)
  have htake : s.toList.takeWhile (fun ch => ch != '@') = a := by
    rw [hcs, List.takeWhile_append_of_pos hpa]
    simp
  have hdrop : s.toList.dropWhile (fun ch => ch != '@') = '@' :: (b ++ '.' :: c) := by
    rw [hcs, List.dropWhile_append_of_pos hpa]
    simp
  have hval : validateEmail s =
      (!a.isEmpty && a.all emailAtomChar &&
        !(b ++ '.' :: c).isEmpty && (b ++ '.' :: c).all emailAtomChar &&
        (((b ++ '.' :: c).drop 1).dropLast.contains '.')) := by
    simp only [validateEmail]
    rw [htake, hdrop]
  rw [hval]
  simp only [Bool.and_eq_true]
  refine ⟨⟨⟨⟨?_, ?_⟩, ?_⟩, ?_⟩, ?_⟩
  · simpa using ha
  · exact List.all_eq_true.mpr hA
  · simp
  · refine List.all_eq_true.mpr ?_
    intro x hx
    rcases List.mem_append.mp hx with hx | hx
    · exact hB x hx
    · rcases List.mem_cons.mp hx with hx | hx
      · rw [hx]
        decide
      · exact hC x hx
  · obtain ⟨b0, bt, rfl⟩ := List.exists_cons_of_ne_nil hb
    rw [List.cons_append, List.drop_succ_cons, List.drop_zero]
    rw [List.dropLast_append_cons, List.dropLast_cons_of_ne_nil hc]
    have hm : ('.' : Char) ∈ bt ++ '.' :: c.dropLast := List.mem_append_cons_self
    simp [hm]

/-- C5: `validateEmail` accepts exactly the strings of the shape one or more
non-whitespace-non-`@` characters, `@`, more such characters, `.`, more such
characters; `user@example.com` is accepted, `user@example` rejected;
empty-after-trim input is rejected with the required-message, distinct from
the invalid-format message; and a rejected submit never reaches
`onSubmit`. -/
theorem C5_email_validation :
    (∀ s, validateEmail s = true ↔ emailPatternSpec s) ∧
    validateEmail "user@example.com" = true ∧
    validateEmail "user@example" = false ∧
    (∀ s, jsTrimString s = "" →
        emailHandleSubmit s = { error := some "Email is required", submitted := none }) ∧
    emailHandleSubmit "" = { error := some "Email is required", submitted := none } ∧
    "Email is required" ≠ "Please enter a valid email address" ∧
    (∀ s, (emailHandleSubmit s).error.isSome = true →
        (emailHandleSubmit s).submitted = none) := by
  refine ⟨fun s => ⟨validateEmail_sound s, validateEmail_complete s⟩,
    by decide, by decide, ?_, by decide, by decide, ?_⟩
  · intro s h
    simp [emailHandleSubmit, h]
  · intro s h
    by_cases h1 : jsTrimString s = ""
    · simp [emailHandleSubmit, h1]
    · by_cases h2 : validateEmail s = false
      · simp [emailHandleSubmit, h1, h2]
      · exfalso
        simp [emailHandleSubmit, h1, h2] at h

/-- Witness for C5: the empty input is rejected as required, and a rejected
input is never submitted. -/
theorem C5_email_validation_witness :
    emailHandleSubmit "" = { error := some "Email is required", submitted := none } ∧
    (emailHandleSubmit "user@example").submitted = none :=
  ⟨C5_email_validation.2.2.2.1 "" (by decide),
   C5_email_validation.2.2.2.2.2.2 "user@example" (by decide)⟩
